import Mathlib

/-!
Verification of the sink-side USB PD negotiation core of `stm32g431_pd_demo`
(`src/power.rs`, `src/main.rs`): the CC attach monitor with debounce, the
transport error reclassification, and the device policy manager (EPR entry,
request decision).  Hardware access and the external protocol engine are
abstracted: CC sampling becomes a finite trace of held voltage states, and the
policy functions become pure functions over the capability data model.
-/

set_option maxHeartbeats 1000000

namespace PdDemo

/-- CC line voltage tier as sampled by the UCPD phy (`CcVState` of
`embassy_stm32::ucpd`); `lowest` is the open / no-resistor tier. -/
inductive CcVState where
  | lowest
  | low
  | high
  | highest
deriving DecidableEq

/-- Cable orientation produced by the attach monitor (`CableOrientation` in
`src/power.rs`, lines 136-141). -/
inductive CableOrientation where
  | normal
  | flipped
  | debugAccessoryMode
deriving DecidableEq

/-- The orientation match at the end of `wait_attached` (`src/power.rs`,
lines 214-218): `(_, LOWEST) => Normal` (CC1 connected), `(LOWEST, _) =>
Flipped` (CC2 connected), anything else `DebugAccessoryMode`. -/
def classifyOrientation (cc1 cc2 : CcVState) : CableOrientation :=
  match cc1, cc2 with
  | _, CcVState.lowest => CableOrientation.normal
  | CcVState.lowest, _ => CableOrientation.flipped
  | _, _ => CableOrientation.debugAccessoryMode

/-- A trace of CC samples: each entry is the pair of CC voltage states together
with the number of milliseconds this state is held before the next vstate
change event fires. -/
abbrev CcTrace := List ((CcVState × CcVState) × Nat)

/-- Shallow embedding of `wait_attached` (`src/power.rs`, lines 195-220) over a
finite sample trace.  While both lines read the lowest tier the monitor blocks
on the next vstate change and resamples; otherwise the 100 ms debounce timer
races the next change: a change arriving before the timer elapses restarts
detection, a full stable window returns the classified orientation.  An
exhausted trace means the monitor is still waiting (`none`). -/
def waitAttached : CcTrace → Option CableOrientation
  | [] => none
  | ((cc1, cc2), held) :: rest =>
    if cc1 = CcVState.lowest ∧ cc2 = CcVState.lowest then waitAttached rest
    else if held < 100 then waitAttached rest
    else some (classifyOrientation cc1 cc2)

/-- First trace entry whose state is attached (not both lines lowest) and held
for at least the full 100 ms debounce window. -/
def firstStable : CcTrace → Option (CcVState × CcVState)
  | [] => none
  | (s, held) :: rest =>
    if ¬(s.1 = CcVState.lowest ∧ s.2 = CcVState.lowest) ∧ 100 ≤ held then some s
    else firstStable rest

/-- C9: `wait_attached` reports an orientation exactly when some sample is held
stable for a full uninterrupted 100 ms debounce window with at least one line
attached; any change occurring before the window elapses discards all debounce
progress, and the single reported orientation is the classification of the
first such stable held state. -/
theorem wait_attached_debounce_characterization (t : CcTrace) :
    waitAttached t = Option.map (fun s => classifyOrientation s.1 s.2) (firstStable t) := by
  induction t with
  | nil => rfl
  | cons e rest ih =>
    obtain ⟨⟨cc1, cc2⟩, held⟩ := e
    by_cases h1 : cc1 = CcVState.lowest ∧ cc2 = CcVState.lowest
    · simp [waitAttached, firstStable, h1, ih]
    · by_cases h2 : held < 100
      · have h3 : ¬ (100 ≤ held) := by omega
        simp [waitAttached, firstStable, h1, h2, h3, ih]
      · have h3 : 100 ≤ held := by omega
        simp [waitAttached, firstStable, h1, h2, h3]

/-- C1 counterexample: with cc1 at the lowest tier and cc2 attached, a stable
debounce window makes `wait_attached` report `Flipped` (CC2 connected), not
`Normal` as the claim states. -/
theorem wait_attached_mapping_cex :
    waitAttached [((CcVState.lowest, CcVState.high), 150)] = some CableOrientation.flipped ∧
      CableOrientation.flipped ≠ CableOrientation.normal := by
  decide

/-- C1 (amended): after a stable debounce window, `wait_attached` classifies
(cc1 non-lowest, cc2 lowest) as `Normal`, (cc1 lowest, cc2 non-lowest) as
`Flipped`, and both non-lowest as `DebugAccessoryMode`. -/
theorem wait_attached_orientation_amended (cc1 cc2 : CcVState) (held : Nat)
    (rest : CcTrace) (hheld : 100 ≤ held) :
    (cc1 ≠ CcVState.lowest → cc2 = CcVState.lowest →
      waitAttached (((cc1, cc2), held) :: rest) = some CableOrientation.normal) ∧
    (cc1 = CcVState.lowest → cc2 ≠ CcVState.lowest →
      waitAttached (((cc1, cc2), held) :: rest) = some CableOrientation.flipped) ∧
    (cc1 ≠ CcVState.lowest → cc2 ≠ CcVState.lowest →
      waitAttached (((cc1, cc2), held) :: rest) = some CableOrientation.debugAccessoryMode) := by
  have h3 : ¬ held < 100 := by omega
  refine ⟨?_, ?_, ?_⟩ <;> intro ha hb <;>
    cases cc1 <;> cases cc2 <;>
      simp_all [waitAttached, classifyOrientation]

/-- C1 (amended) instantiated at concrete stable samples. -/
theorem wait_attached_orientation_amended_inst :
    waitAttached [((CcVState.high, CcVState.lowest), 100)] = some CableOrientation.normal ∧
    waitAttached [((CcVState.lowest, CcVState.high), 100)] = some CableOrientation.flipped ∧
    waitAttached [((CcVState.high, CcVState.high), 100)] =
      some CableOrientation.debugAccessoryMode :=
  ⟨(wait_attached_orientation_amended CcVState.high CcVState.lowest 100 [] (by decide)).1
      (by decide) rfl,
   (wait_attached_orientation_amended CcVState.lowest CcVState.high 100 [] (by decide)).2.1
      rfl (by decide),
   (wait_attached_orientation_amended CcVState.high CcVState.high 100 [] (by decide)).2.2
      (by decide) (by decide)⟩

/-- Fields of a `FixedSupply` PDO used by the policy code, in native units
(voltage in 50 mV steps, current in 10 mA steps), plus the EPR-capable bit.
Modelled from the spec: the `usbpd` crate's `FixedSupply` accessors
(`raw_voltage`, `raw_max_current`, `epr_mode_capable`). -/
structure FixedSupplyFields where
  raw_voltage : Nat
  raw_max_current : Nat
  epr_mode_capable : Bool
deriving DecidableEq

/-- Fields of an EPR AVS (adjustable voltage supply) augmented PDO, in native
units (voltages in 100 mV steps, PDP in 1 W steps).  Modelled from the spec:
the `usbpd` crate's EPR AVS accessors (`raw_min_voltage`, `raw_max_voltage`,
`raw_pd_power`). -/
structure EprAvsFields where
  raw_min_voltage : Nat
  raw_max_voltage : Nat
  raw_pd_power : Nat
deriving DecidableEq

/-- Augmented PDO variants (`Augmented` in the `usbpd` crate): SPR PPS, EPR
AVS, or unknown.  Only the EPR AVS fields are inspected by the policy code. -/
inductive AugmentedPdo where
  | spr (raw : Nat)
  | epr (avs : EprAvsFields)
  | unknown (raw : Nat)
deriving DecidableEq

/-- Tagged union of advertised power data objects (`PowerDataObject` in the
`usbpd` crate), with raw fields in native units per variant. -/
inductive PowerDataObject where
  | fixedSupply (f : FixedSupplyFields)
  | battery (raw : Nat)
  | variableSupply (raw : Nat)
  | augmented (a : AugmentedPdo)
  | unknown (raw : Nat)
deriving DecidableEq

/-- Modelled from the spec: `is_zero_padding` of the `usbpd` crate — true for
an all-zero placeholder entry used to pad the SPR section of an EPR
capabilities message (an all-zero word parses as a zeroed fixed supply). -/
def PowerDataObject.is_zero_padding : PowerDataObject → Bool
  | PowerDataObject.fixedSupply f =>
      f.raw_voltage == 0 && f.raw_max_current == 0 && !f.epr_mode_capable
  | PowerDataObject.unknown raw => raw == 0
  | _ => false

/-- Modelled from the spec: `SourceCapabilities` of the `usbpd` crate — the
ordered PDO list advertised by the source together with the derived flag
telling whether this is an EPR capabilities message. -/
structure SourceCapabilities where
  pdos : List PowerDataObject
  is_epr : Bool
deriving DecidableEq

/-- Modelled from the spec: derived flag, true when the source advertised an
EPR PDO list. -/
def SourceCapabilities.is_epr_capabilities (c : SourceCapabilities) : Bool :=
  c.is_epr

/-- Pairs each list entry with its 1-based position, starting at `n`. -/
def enumFrom (n : Nat) : List PowerDataObject → List (Nat × PowerDataObject)
  | [] => []
  | p :: ps => (n, p) :: enumFrom (n + 1) ps

/-- Modelled from the spec: `spr_pdos` of the `usbpd` crate — the SPR prefix
of the advertised list with 1-based positions.  In an EPR capabilities message
the SPR section occupies the first 7 slots (zero padded); an SPR message is
all SPR. -/
def SourceCapabilities.spr_pdos (c : SourceCapabilities) : List (Nat × PowerDataObject) :=
  if c.is_epr then (enumFrom 1 c.pdos).take 7 else enumFrom 1 c.pdos

/-- Modelled from the spec: `epr_pdos` of the `usbpd` crate — the EPR suffix
(slots 8 and up of an EPR capabilities message) with 1-based positions into
the full advertised list; empty for an SPR message. -/
def SourceCapabilities.epr_pdos (c : SourceCapabilities) : List (Nat × PowerDataObject) :=
  if c.is_epr then (enumFrom 1 c.pdos).drop 7 else []

/-- Target voltage for the AVS request (`TARGET_AVS_VOLTAGE_V`, 24 V). -/
def targetAvsVoltageV : Nat := 24

/-- Target current for the AVS request in 50 mA units
(`TARGET_AVS_CURRENT_RAW`, 5 A = 100). -/
def targetAvsCurrentRaw : Nat := 5 * 20

/-- Operational PDP for EPR mode entry (`OPERATIONAL_PDP_WATTS`, 120 W). -/
def operationalPdpWatts : Nat := 120

/-- The policy manager's session state (`Device` in `src/power.rs`,
lines 237-241): one flag recording whether EPR mode entry was requested. -/
structure Device where
  entered_epr_mode : Bool
deriving DecidableEq

/-- Unsolicited events produced by the policy manager (`Event` of the `usbpd`
crate as used here): a request to enter EPR mode with a power budget in
watts. -/
inductive Event where
  | enterEprMode (watts : Nat)
deriving DecidableEq

/-- True when the first advertised PDO is a `FixedSupply` with its EPR-capable
bit set — the condition checked both by `get_event` and by `request`
(`src/power.rs`, lines 252-253 and 265-275). -/
def sourceEprCapable (caps : SourceCapabilities) : Bool :=
  match caps.pdos.head? with
  | some (PowerDataObject.fixedSupply f) => f.epr_mode_capable
  | _ => false

/-- Shallow embedding of `Device::get_event` (`src/power.rs`, lines 249-261).
The pending-forever branch is `none`; the returned pair is (event, updated
device state). -/
def get_event (d : Device) (caps : SourceCapabilities) : Option Event × Device :=
  if !d.entered_epr_mode then
    match caps.pdos.head? with
    | some (PowerDataObject.fixedSupply fixed) =>
      if fixed.epr_mode_capable then
        (some (Event.enterEprMode operationalPdpWatts), { entered_epr_mode := true })
      else (none, d)
    | _ => (none, d)
  else (none, d)

/-- Runs `get_event` over a whole session's sequence of capability
announcements, threading the device state. -/
def runEvents (d : Device) : List SourceCapabilities → List (Option Event) × Device
  | [] => ([], d)
  | c :: cs =>
    let r := get_event d c
    let rs := runEvents r.2 cs
    (r.1 :: rs.1, rs.2)

/-- Expected event sequence: `EnterEprMode` exactly at the first announcement
whose first PDO is an EPR-capable fixed supply, and nothing anywhere else. -/
def firstFire : List SourceCapabilities → List (Option Event)
  | [] => []
  | c :: cs =>
    if sourceEprCapable c then
      some (Event.enterEprMode operationalPdpWatts) :: cs.map (fun _ => none)
    else none :: firstFire cs

/-- Helper: once the flag is set, `get_event` pends forever and never mutates. -/
theorem runEvents_entered (l : List SourceCapabilities) :
    runEvents { entered_epr_mode := true } l = (l.map (fun _ => none), { entered_epr_mode := true }) := by
  induction l with
  | nil => rfl
  | cons c cs ih => simp [runEvents, get_event, ih]

/-- C4: `get_event` returns `EnterEprMode` exactly when the flag is still
clear and the first PDO is an EPR-capable `FixedSupply`, setting the flag as
its only mutation, and pends forever leaving the state untouched otherwise;
hence over any session starting with a clear flag the event fires exactly at
the first qualifying announcement and never again, even across repeated
identical announcements. -/
theorem get_event_enter_epr_once :
    (∀ (d : Device) (caps : SourceCapabilities),
      get_event d caps =
        if !d.entered_epr_mode && sourceEprCapable caps then
          (some (Event.enterEprMode operationalPdpWatts), { entered_epr_mode := true })
        else (none, d)) ∧
    (∀ (l : List SourceCapabilities),
      (runEvents { entered_epr_mode := false } l).1 = firstFire l) := by
  have hstep : ∀ (d : Device) (caps : SourceCapabilities),
      get_event d caps =
        if !d.entered_epr_mode && sourceEprCapable caps then
          (some (Event.enterEprMode operationalPdpWatts), { entered_epr_mode := true })
        else (none, d) := by
    intro d caps
    obtain ⟨b⟩ := d
    cases b <;>
      · cases hc : caps.pdos.head? with
        | none => simp [get_event, sourceEprCapable, hc]
        | some p =>
          cases p <;> simp [get_event, sourceEprCapable, hc]
  refine ⟨hstep, ?_⟩
  intro l
  induction l with
  | nil => rfl
  | cons c cs ih =>
    by_cases h : sourceEprCapable c = true
    · simp [runEvents, firstFire, hstep, h, runEvents_entered]
    · simp only [Bool.not_eq_true] at h
      simp [runEvents, firstFire, hstep, h, ih]

/-- Receive errors of the UCPD phy (`ucpd::RxError` in `embassy_stm32`). -/
inductive RxError where
  | crc
  | overrun
  | hardReset
deriving DecidableEq

/-- Transmit errors of the UCPD phy (`ucpd::TxError` in `embassy_stm32`). -/
inductive TxError where
  | discarded
  | hardReset
deriving DecidableEq

/-- Receive failure taxonomy expected by the protocol engine
(`usbpd_traits::DriverRxError`). -/
inductive DriverRxError where
  | discarded
  | hardReset
deriving DecidableEq

/-- Transmit failure taxonomy expected by the protocol engine
(`usbpd_traits::DriverTxError`). -/
inductive DriverTxError where
  | discarded
  | hardReset
deriving DecidableEq

/-- Shallow embedding of `UcpdSinkDriver::receive` (`src/power.rs`,
lines 159-164): the phy outcome (byte count or `RxError`) is passed through
with `map_err` reclassifying `Crc` and `Overrun` to `Discarded` and
`HardReset` to `HardReset`. -/
def driverReceive (result : Except RxError Nat) : Except DriverRxError Nat :=
  match result with
  | Except.ok n => Except.ok n
  | Except.error e =>
    Except.error (match e with
      | RxError.crc => DriverRxError.discarded
      | RxError.overrun => DriverRxError.discarded
      | RxError.hardReset => DriverRxError.hardReset)

/-- Shallow embedding of `UcpdSinkDriver::transmit` (`src/power.rs`,
lines 166-171): `Discarded` maps to `Discarded`, `HardReset` to `HardReset`,
success passes through. -/
def driverTransmit (result : Except TxError Unit) : Except DriverTxError Unit :=
  match result with
  | Except.ok u => Except.ok u
  | Except.error e =>
    Except.error (match e with
      | TxError.discarded => DriverTxError.discarded
      | TxError.hardReset => DriverTxError.hardReset)

/-- Shallow embedding of `UcpdSinkDriver::transmit_hard_reset`
(`src/power.rs`, lines 173-181), with the same reclassification as
`transmit`. -/
def driverTransmitHardReset (result : Except TxError Unit) : Except DriverTxError Unit :=
  match result with
  | Except.ok u => Except.ok u
  | Except.error e =>
    Except.error (match e with
      | TxError.discarded => DriverTxError.discarded
      | TxError.hardReset => DriverTxError.hardReset)

/-- C8: the transport adapter reclassifies errors exactly as specified — on
receive, CRC and overrun map to `Discarded` and a hard-reset signal to
`HardReset`; on transmit and transmit-hard-reset, a discard maps to
`Discarded` and a hard-reset to `HardReset`; successful results and received
byte counts pass through unchanged, with no retry logic. -/
theorem driver_error_reclassification :
    (∀ n : Nat, driverReceive (Except.ok n) = Except.ok n) ∧
    driverReceive (Except.error RxError.crc) = Except.error DriverRxError.discarded ∧
    driverReceive (Except.error RxError.overrun) = Except.error DriverRxError.discarded ∧
    driverReceive (Except.error RxError.hardReset) = Except.error DriverRxError.hardReset ∧
    driverTransmit (Except.ok ()) = Except.ok () ∧
    driverTransmit (Except.error TxError.discarded) = Except.error DriverTxError.discarded ∧
    driverTransmit (Except.error TxError.hardReset) = Except.error DriverTxError.hardReset ∧
    driverTransmitHardReset (Except.ok ()) = Except.ok () ∧
    driverTransmitHardReset (Except.error TxError.discarded) =
      Except.error DriverTxError.discarded ∧
    driverTransmitHardReset (Except.error TxError.hardReset) =
      Except.error DriverTxError.hardReset := by
  refine ⟨fun n => rfl, rfl, rfl, rfl, rfl, rfl, rfl, rfl, rfl, rfl⟩

/-- EPR AVS request data object, with fields in native units (output voltage
in 25 mV units, operating current in 50 mA units).  Modelled from the spec:
the `usbpd` crate's `Avs` RDO builder (`with_object_position`,
`with_usb_communications_capable`, `with_no_usb_suspend`,
`with_epr_mode_capable`, `with_raw_output_voltage`,
`with_raw_operating_current`). -/
structure AvsRdo where
  object_position : Nat
  usb_communications_capable : Bool
  no_usb_suspend : Bool
  epr_mode_capable : Bool
  raw_output_voltage : Nat
  raw_operating_current : Nat
deriving DecidableEq

/-- Fixed/variable request data object with currents in 10 mA units.
Modelled from the spec: the `usbpd` crate's `FixedVariableSupply` RDO
builder. -/
structure FixedVariableRdo where
  object_position : Nat
  usb_communications_capable : Bool
  no_usb_suspend : Bool
  epr_mode_capable : Bool
  raw_operating_current : Nat
  raw_max_operating_current : Nat
deriving DecidableEq

/-- The decided power request (`PowerSource` of the `usbpd` crate as used
here): either an EPR request carrying the AVS RDO and its source PDO, or a
fixed/variable request. -/
inductive PowerSource where
  | eprRequest (rdo : AvsRdo) (pdo : PowerDataObject)
  | fixedVariableSupply (rdo : FixedVariableRdo)
deriving DecidableEq

/-- The 1-based position encoded in a request (`object_position` of the
`usbpd` crate's `PowerSource`). -/
def PowerSource.object_position : PowerSource → Nat
  | PowerSource.eprRequest rdo _ => rdo.object_position
  | PowerSource.fixedVariableSupply rdo => rdo.object_position

/-- Rust's `Iterator::max_by_key`: greatest key wins, the last maximal
element is returned when keys tie. -/
def maxByKey (key : α → Nat) : List α → Option α
  | [] => none
  | x :: xs =>
    match maxByKey key xs with
    | none => some x
    | some y => if key y < key x then some x else some y

/-- Filter used by `request` when scanning for fixed-supply PDOs
(`src/power.rs`, line 349). -/
def isFixedPair : Nat × PowerDataObject → Bool
  | (_, PowerDataObject.fixedSupply _) => true
  | _ => false

/-- Key used by `request` to rank fixed-supply PDOs by raw voltage
(`src/power.rs`, lines 350-356). -/
def fixedVoltageKey : Nat × PowerDataObject → Nat
  | (_, PowerDataObject.fixedSupply f) => f.raw_voltage
  | _ => 0

/-- Voltage request selector of the `usbpd` crate (`VoltageRequest`): only the
variants used by `request` are modelled. -/
inductive VoltageRequest where
  | highest
  | safe5V
deriving DecidableEq

/-- Current request selector of the `usbpd` crate (`CurrentRequest`): only
`Highest` is used by `request`. -/
inductive CurrentRequest where
  | highest
deriving DecidableEq

/-- Modelled from the spec: `PowerSource::new_fixed` of the `usbpd` crate.
Among the advertised fixed-supply PDOs it selects, for `Highest`, the one
with the highest voltage, and for `Safe5V`, the mandatory 5 V PDO
(raw voltage 100 in 50 mV units); with `CurrentRequest::Highest` the RDO
requests the selected PDO's maximum current.  The resulting RDO carries the
1-based object position of the selected PDO and does not set the EPR-capable
flag; `none` models the error when no suitable PDO exists. -/
def newFixed (cur : CurrentRequest) (vol : VoltageRequest) (caps : SourceCapabilities) :
    Option PowerSource :=
  match cur with
  | CurrentRequest.highest =>
    let fixeds := (enumFrom 1 caps.pdos).filter isFixedPair
    let chosen :=
      match vol with
      | VoltageRequest.highest => maxByKey fixedVoltageKey fixeds
      | VoltageRequest.safe5V =>
        fixeds.find? (fun pp =>
          match pp.2 with
          | PowerDataObject.fixedSupply f => f.raw_voltage == 100
          | _ => false)
    match chosen with
    | some (position, PowerDataObject.fixedSupply f) =>
      some (PowerSource.fixedVariableSupply
        { object_position := position
          usb_communications_capable := true
          no_usb_suspend := true
          epr_mode_capable := false
          raw_operating_current := f.raw_max_current
          raw_max_operating_current := f.raw_max_current })
    | _ => none

/-- The AVS output voltage field computed by `request` (`src/power.rs`,
line 311): `((TARGET_AVS_VOLTAGE_V * 1000 / 25) & !0x3) as u16` — 25 mV units
with the two least-significant bits forced to zero. -/
def avsVoltageRaw : Nat := ((targetAvsVoltageV * 1000 / 25) &&& 0xFFFFFFFC) % 65536

/-- The AVS RDO built by `request` for a selected EPR AVS PDO
(`src/power.rs`, lines 291-327): the maximum deliverable current is derived
from the PDO's power budget at the target voltage and floor-divided into
50 mA units (with the `as u16` cast), the requested current is capped at that
maximum, and the fixed encoded voltage and flags are filled in. -/
def mkAvsRdo (position : Nat) (avs : EprAvsFields) : AvsRdo :=
  let pdp_mw := avs.raw_pd_power * 1000
  let max_current_ma := pdp_mw / targetAvsVoltageV
  let max_current_raw := (max_current_ma / 50) % 65536
  let current :=
    if targetAvsCurrentRaw > max_current_raw then max_current_raw else targetAvsCurrentRaw
  { object_position := position
    usb_communications_capable := true
    no_usb_suspend := true
    epr_mode_capable := true
    raw_output_voltage := avsVoltageRaw
    raw_operating_current := current }

/-- The EPR AVS scan loop of `request` (`src/power.rs`, lines 279-335): walk
the EPR PDOs in order, skip zero-padding entries, and return an EPR request
for the first EPR AVS PDO whose inclusive voltage range contains the 24 V
target. -/
def avsScan : List (Nat × PowerDataObject) → Option PowerSource
  | [] => none
  | (position, pdo) :: rest =>
    if pdo.is_zero_padding then avsScan rest
    else
      match pdo with
      | PowerDataObject.augmented (AugmentedPdo.epr avs) =>
        let min_mv := avs.raw_min_voltage * 100
        let max_mv := avs.raw_max_voltage * 100
        let target_mv := targetAvsVoltageV * 1000
        if min_mv ≤ target_mv ∧ target_mv ≤ max_mv then
          some (PowerSource.eprRequest (mkAvsRdo position avs) pdo)
        else avsScan rest
      | _ => avsScan rest

/-- Selector written from the claim's words: the first EPR PDO entry that is
not zero padding and is an `AugmentedEPR` (AVS) PDO whose inclusive
`[min_mv, max_mv]` range contains the 24 000 mV target. -/
def findFirstAvs : List (Nat × PowerDataObject) → Option (Nat × EprAvsFields)
  | [] => none
  | (position, pdo) :: rest =>
    if pdo.is_zero_padding then findFirstAvs rest
    else
      match pdo with
      | PowerDataObject.augmented (AugmentedPdo.epr avs) =>
        if avs.raw_min_voltage * 100 ≤ targetAvsVoltageV * 1000 ∧
            targetAvsVoltageV * 1000 ≤ avs.raw_max_voltage * 100 then
          some (position, avs)
        else findFirstAvs rest
      | _ => findFirstAvs rest

/-- The SPR-with-EPR-flag branch of `request` (`src/power.rs`,
lines 345-378): choose the highest-voltage fixed-supply PDO among the SPR
PDOs and build a fixed/variable RDO at its maximum current with the
EPR-capable flag set; `none` when no fixed-supply SPR PDO exists (the code
then falls through to the standard request). -/
def sprEprRequest (caps : SourceCapabilities) : Option PowerSource :=
  match maxByKey fixedVoltageKey (caps.spr_pdos.filter isFixedPair) with
  | some (position, PowerDataObject.fixedSupply fixed) =>
    some (PowerSource.fixedVariableSupply
      { object_position := position
        usb_communications_capable := true
        no_usb_suspend := true
        epr_mode_capable := true
        raw_operating_current := fixed.raw_max_current
        raw_max_operating_current := fixed.raw_max_current })
  | _ => none

/-- Shallow embedding of `Device::request` (`src/power.rs`, lines 263-403):
the EPR AVS scan when the capabilities are EPR, then the SPR request with the
EPR-capable flag when the first PDO signals EPR capability, then the standard
highest-voltage fixed request, and finally the 5 V safe fallback whose
`unwrap` panic is modelled by `none`. -/
def request (caps : SourceCapabilities) : Option PowerSource :=
  match (if caps.is_epr_capabilities then avsScan caps.epr_pdos else none) with
  | some ps => some ps
  | none =>
    match (if sourceEprCapable caps then sprEprRequest caps else none) with
    | some ps => some ps
    | none =>
      match newFixed CurrentRequest.highest VoltageRequest.highest caps with
      | some ps => some ps
      | none => newFixed CurrentRequest.highest VoltageRequest.safe5V caps

/-- Positions produced by `enumFrom` locate the paired entry in the list. -/
theorem enumFrom_mem : ∀ (l : List PowerDataObject) (n pos : Nat) (p : PowerDataObject),
    (pos, p) ∈ enumFrom n l → n ≤ pos ∧ l[pos - n]? = some p := by
  intro l
  induction l with
  | nil => intro n pos p h; simp [enumFrom] at h
  | cons x xs ih =>
    intro n pos p h
    simp only [enumFrom, List.mem_cons] at h
    rcases h with h | h
    · rw [Prod.mk.injEq] at h
      obtain ⟨rfl, rfl⟩ := h
      refine ⟨Nat.le_refl _, ?_⟩
      simp
    · obtain ⟨hle, hget⟩ := ih (n + 1) pos p h
      refine ⟨by omega, ?_⟩
      have hs : pos - n = (pos - (n + 1)) + 1 := by omega
      rw [hs]
      simpa using hget

/-- Every list entry appears in `enumFrom` at some position. -/
theorem mem_enumFrom : ∀ (l : List PowerDataObject) (n : Nat) (p : PowerDataObject),
    p ∈ l → ∃ pos, (pos, p) ∈ enumFrom n l := by
  intro l
  induction l with
  | nil => intro n p h; simp at h
  | cons x xs ih =>
    intro n p h
    rcases List.mem_cons.mp h with rfl | h
    · exact ⟨n, List.mem_cons_self _ _⟩
    · obtain ⟨pos, hpos⟩ := ih (n + 1) p h
      exact ⟨pos, List.mem_cons_of_mem _ hpos⟩

/-- `maxByKey` never returns `none` on a nonempty list. -/
theorem maxByKey_eq_none {key : α → Nat} : ∀ {l : List α}, maxByKey key l = none → l = [] := by
  intro l
  cases l with
  | nil => intro _; rfl
  | cons a as =>
    intro h
    simp only [maxByKey] at h
    cases hm : maxByKey key as with
    | none => rw [hm] at h; cases h
    | some y => rw [hm] at h; by_cases hk : key y < key a <;> simp [hk] at h

/-- The element returned by `maxByKey` belongs to the list. -/
theorem maxByKey_mem {key : α → Nat} : ∀ {l : List α} {x : α},
    maxByKey key l = some x → x ∈ l := by
  intro l
  induction l with
  | nil => intro x h; simp [maxByKey] at h
  | cons a as ih =>
    intro x h
    simp only [maxByKey] at h
    cases hm : maxByKey key as with
    | none =>
      simp only [hm] at h
      obtain rfl := Option.some.inj h
      exact List.mem_cons_self _ _
    | some y =>
      simp only [hm] at h
      by_cases hk : key y < key a
      · rw [if_pos hk] at h
        obtain rfl := Option.some.inj h
        exact List.mem_cons_self _ _
      · rw [if_neg hk] at h
        obtain rfl := Option.some.inj h
        exact List.mem_cons_of_mem _ (ih hm)

/-- The element returned by `maxByKey` has a maximal key. -/
theorem maxByKey_le {key : α → Nat} : ∀ {l : List α} {x y : α},
    maxByKey key l = some x → y ∈ l → key y ≤ key x := by
  intro l
  induction l with
  | nil => intro x y h hy; simp at hy
  | cons a as ih =>
    intro x y h hy
    simp only [maxByKey] at h
    cases hm : maxByKey key as with
    | none =>
      simp only [hm] at h
      obtain rfl := Option.some.inj h
      have has : as = [] := maxByKey_eq_none hm
      subst has
      rcases List.mem_cons.mp hy with rfl | hy
      · exact Nat.le_refl _
      · simp at hy
    | some z =>
      simp only [hm] at h
      by_cases hk : key z < key a
      · rw [if_pos hk] at h
        obtain rfl := Option.some.inj h
        rcases List.mem_cons.mp hy with rfl | hy
        · exact Nat.le_refl _
        · exact Nat.le_of_lt (Nat.lt_of_le_of_lt (ih hm hy) hk)
      · rw [if_neg hk] at h
        obtain rfl := Option.some.inj h
        rcases List.mem_cons.mp hy with rfl | hy
        · omega
        · exact ih hm hy

/-- The AVS scan loop returns exactly the request built from the first
in-range AVS PDO found by the claim-side selector. -/
theorem avsScan_eq_findFirstAvs : ∀ l : List (Nat × PowerDataObject),
    avsScan l = Option.map
      (fun pa => PowerSource.eprRequest (mkAvsRdo pa.1 pa.2)
        (PowerDataObject.augmented (AugmentedPdo.epr pa.2))) (findFirstAvs l) := by
  intro l
  induction l with
  | nil => rfl
  | cons e rest ih =>
    obtain ⟨position, pdo⟩ := e
    by_cases hz : pdo.is_zero_padding
    · simp [avsScan, findFirstAvs, hz, ih]
    · cases pdo with
      | augmented a =>
        cases a with
        | epr avs =>
          by_cases hr : avs.raw_min_voltage * 100 ≤ targetAvsVoltageV * 1000 ∧
              targetAvsVoltageV * 1000 ≤ avs.raw_max_voltage * 100
          · simp [avsScan, findFirstAvs, hz, hr]
          · simp [avsScan, findFirstAvs, hz, hr, ih]
        | spr raw => simp [avsScan, findFirstAvs, hz, ih]
        | unknown raw => simp [avsScan, findFirstAvs, hz, ih]
      | fixedSupply f => simp [avsScan, findFirstAvs, hz, ih]
      | battery raw => simp [avsScan, findFirstAvs, hz, ih]
      | variableSupply raw => simp [avsScan, findFirstAvs, hz, ih]
      | unknown raw => simp [avsScan, findFirstAvs, hz, ih]

/-- The entry selected by `findFirstAvs` belongs to the scanned list. -/
theorem findFirstAvs_mem : ∀ {l : List (Nat × PowerDataObject)} {pos : Nat} {avs : EprAvsFields},
    findFirstAvs l = some (pos, avs) →
      (pos, PowerDataObject.augmented (AugmentedPdo.epr avs)) ∈ l := by
  intro l
  induction l with
  | nil => intro pos avs h; simp [findFirstAvs] at h
  | cons e rest ih =>
    intro pos avs h
    obtain ⟨position, pdo⟩ := e
    by_cases hz : pdo.is_zero_padding
    · simp only [findFirstAvs, if_pos hz] at h
      exact List.mem_cons_of_mem _ (ih h)
    · cases pdo with
      | augmented a =>
        cases a with
        | epr avs2 =>
          simp only [findFirstAvs, if_neg hz] at h
          by_cases hr : avs2.raw_min_voltage * 100 ≤ targetAvsVoltageV * 1000 ∧
              targetAvsVoltageV * 1000 ≤ avs2.raw_max_voltage * 100
          · rw [if_pos hr] at h
            simp only [Option.some.injEq, Prod.mk.injEq] at h
            obtain ⟨rfl, rfl⟩ := h
            exact List.mem_cons_self _ _
          · rw [if_neg hr] at h
            exact List.mem_cons_of_mem _ (ih h)
        | spr raw =>
          simp only [findFirstAvs, if_neg hz] at h
          exact List.mem_cons_of_mem _ (ih h)
        | unknown raw =>
          simp only [findFirstAvs, if_neg hz] at h
          exact List.mem_cons_of_mem _ (ih h)
      | fixedSupply f =>
        simp only [findFirstAvs, if_neg hz] at h
        exact List.mem_cons_of_mem _ (ih h)
      | battery raw =>
        simp only [findFirstAvs, if_neg hz] at h
        exact List.mem_cons_of_mem _ (ih h)
      | variableSupply raw =>
        simp only [findFirstAvs, if_neg hz] at h
        exact List.mem_cons_of_mem _ (ih h)
      | unknown raw =>
        simp only [findFirstAvs, if_neg hz] at h
        exact List.mem_cons_of_mem _ (ih h)

/-- SPR enumeration entries are entries of the full enumerated list. -/
theorem spr_pdos_subset (caps : SourceCapabilities) :
    ∀ x ∈ caps.spr_pdos, x ∈ enumFrom 1 caps.pdos := by
  intro x hx
  unfold SourceCapabilities.spr_pdos at hx
  by_cases h : caps.is_epr = true
  · rw [if_pos h] at hx
    exact List.take_subset _ _ hx
  · rw [if_neg h] at hx
    exact hx

/-- EPR enumeration entries are entries of the full enumerated list. -/
theorem epr_pdos_subset (caps : SourceCapabilities) :
    ∀ x ∈ caps.epr_pdos, x ∈ enumFrom 1 caps.pdos := by
  intro x hx
  unfold SourceCapabilities.epr_pdos at hx
  by_cases h : caps.is_epr = true
  · rw [if_pos h] at hx
    exact List.drop_subset _ _ hx
  · rw [if_neg h] at hx
    simp at hx

/-- The head of the advertised list appears at position 1 of the SPR
enumeration. -/
theorem head_mem_spr_pdos {caps : SourceCapabilities} {p : PowerDataObject}
    (h : caps.pdos.head? = some p) : (1, p) ∈ caps.spr_pdos := by
  cases hl : caps.pdos with
  | nil => rw [hl] at h; cases h
  | cons x xs =>
    rw [hl] at h
    simp only [List.head?_cons, Option.some.injEq] at h
    subst h
    unfold SourceCapabilities.spr_pdos
    by_cases he : caps.is_epr = true
    · rw [if_pos he, hl]
      rw [show (7 : Nat) = 6 + 1 from rfl]
      simp only [enumFrom, List.take_succ_cons]
      exact List.mem_cons_self _ _
    · rw [if_neg he, hl]
      simp only [enumFrom]
      exact List.mem_cons_self _ _

/-- Inversion for the SPR-with-EPR-flag branch: a produced request carries the
selected fixed-supply SPR PDO's position and maximum current, with the
EPR-capable flag set. -/
theorem sprEprRequest_inv {caps : SourceCapabilities} {ps : PowerSource}
    (h : sprEprRequest caps = some ps) :
    ∃ (position : Nat) (f : FixedSupplyFields),
      ps = PowerSource.fixedVariableSupply
        { object_position := position
          usb_communications_capable := true
          no_usb_suspend := true
          epr_mode_capable := true
          raw_operating_current := f.raw_max_current
          raw_max_operating_current := f.raw_max_current } ∧
      (position, PowerDataObject.fixedSupply f) ∈ caps.spr_pdos := by
  unfold sprEprRequest at h
  cases hm : maxByKey fixedVoltageKey (caps.spr_pdos.filter isFixedPair) with
  | none => rw [hm] at h; cases h
  | some pp =>
    rw [hm] at h
    obtain ⟨position, pdo⟩ := pp
    have hmf := List.mem_filter.mp (maxByKey_mem hm)
    cases pdo with
    | fixedSupply f =>
      obtain rfl := Option.some.inj h
      exact ⟨position, f, rfl, hmf.1⟩
    | battery raw => simp [isFixedPair] at hmf
    | variableSupply raw => simp [isFixedPair] at hmf
    | augmented a => simp [isFixedPair] at hmf
    | unknown raw => simp [isFixedPair] at hmf

/-- Inversion for the modelled `new_fixed`: a produced request selects a
fixed-supply PDO of the advertised list at its 1-based position and requests
its maximum current, without the EPR-capable flag. -/
theorem newFixed_inv {cur : CurrentRequest} {vol : VoltageRequest} {caps : SourceCapabilities}
    {ps : PowerSource} (h : newFixed cur vol caps = some ps) :
    ∃ (position : Nat) (f : FixedSupplyFields),
      ps = PowerSource.fixedVariableSupply
        { object_position := position
          usb_communications_capable := true
          no_usb_suspend := true
          epr_mode_capable := false
          raw_operating_current := f.raw_max_current
          raw_max_operating_current := f.raw_max_current } ∧
      (position, PowerDataObject.fixedSupply f) ∈ enumFrom 1 caps.pdos := by
  cases cur
  cases vol with
  | highest =>
    simp only [newFixed] at h
    cases hm : maxByKey fixedVoltageKey ((enumFrom 1 caps.pdos).filter isFixedPair) with
    | none => rw [hm] at h; cases h
    | some pp =>
      rw [hm] at h
      obtain ⟨position, pdo⟩ := pp
      have hmf := List.mem_filter.mp (maxByKey_mem hm)
      cases pdo with
      | fixedSupply f =>
        obtain rfl := Option.some.inj h
        exact ⟨position, f, rfl, hmf.1⟩
      | battery raw => simp [isFixedPair] at hmf
      | variableSupply raw => simp [isFixedPair] at hmf
      | augmented a => simp [isFixedPair] at hmf
      | unknown raw => simp [isFixedPair] at hmf
  | safe5V =>
    simp only [newFixed] at h
    cases hm : ((enumFrom 1 caps.pdos).filter isFixedPair).find? (fun pp =>
        match pp.2 with
        | PowerDataObject.fixedSupply f => f.raw_voltage == 100
        | _ => false) with
    | none => rw [hm] at h; cases h
    | some pp =>
      rw [hm] at h
      obtain ⟨position, pdo⟩ := pp
      have hmf := List.mem_filter.mp (List.mem_of_find?_eq_some hm)
      cases pdo with
      | fixedSupply f =>
        obtain rfl := Option.some.inj h
        exact ⟨position, f, rfl, hmf.1⟩
      | battery raw => simp [isFixedPair] at hmf
      | variableSupply raw => simp [isFixedPair] at hmf
      | augmented a => simp [isFixedPair] at hmf
      | unknown raw => simp [isFixedPair] at hmf

/-- The modelled `new_fixed` at highest voltage succeeds whenever some
fixed-supply PDO is advertised. -/
theorem newFixed_highest_isSome {caps : SourceCapabilities}
    (h : ∃ f : FixedSupplyFields, PowerDataObject.fixedSupply f ∈ caps.pdos) :
    (newFixed CurrentRequest.highest VoltageRequest.highest caps).isSome := by
  obtain ⟨f, hf⟩ := h
  obtain ⟨pos, hpos⟩ := mem_enumFrom _ 1 _ hf
  have hfil : (pos, PowerDataObject.fixedSupply f) ∈ (enumFrom 1 caps.pdos).filter isFixedPair :=
    List.mem_filter.mpr ⟨hpos, rfl⟩
  have hne : (enumFrom 1 caps.pdos).filter isFixedPair ≠ [] := by
    intro hnil
    rw [hnil] at hfil
    simp at hfil
  cases hm : maxByKey fixedVoltageKey ((enumFrom 1 caps.pdos).filter isFixedPair) with
  | none => exact absurd (maxByKey_eq_none hm) hne
  | some pp =>
    obtain ⟨position, pdo⟩ := pp
    have hmf := List.mem_filter.mp (maxByKey_mem hm)
    cases pdo with
    | fixedSupply g => simp [newFixed, hm]
    | battery raw => simp [isFixedPair] at hmf
    | variableSupply raw => simp [isFixedPair] at hmf
    | augmented a => simp [isFixedPair] at hmf
    | unknown raw => simp [isFixedPair] at hmf

/-- Inversion for `request`: an EPR request can only come from the AVS scan,
whose selected PDO is the first in-range AVS entry of the EPR enumeration. -/
theorem request_epr_inv {caps : SourceCapabilities} {rdo : AvsRdo} {pdo : PowerDataObject}
    (h : request caps = some (PowerSource.eprRequest rdo pdo)) :
    ∃ (pos : Nat) (avs : EprAvsFields),
      pdo = PowerDataObject.augmented (AugmentedPdo.epr avs) ∧
      rdo = mkAvsRdo pos avs ∧
      findFirstAvs caps.epr_pdos = some (pos, avs) := by
  unfold request at h
  cases he : (if caps.is_epr_capabilities = true then avsScan caps.epr_pdos else none) with
  | some ps =>
    rw [he] at h
    have hps : ps = PowerSource.eprRequest rdo pdo := Option.some.inj h
    by_cases hb : caps.is_epr_capabilities = true
    · rw [if_pos hb, avsScan_eq_findFirstAvs] at he
      cases hf : findFirstAvs caps.epr_pdos with
      | none => rw [hf] at he; cases he
      | some pa =>
        rw [hf] at he
        simp only [Option.map_some'] at he
        obtain ⟨pos2, avs2⟩ := pa
        have h2 := Option.some.inj he
        rw [hps] at h2
        injection h2 with h3 h4
        exact ⟨pos2, avs2, h4.symm, h3.symm, rfl⟩
    · rw [if_neg hb] at he
      cases he
  | none =>
    rw [he] at h
    cases hs : (if sourceEprCapable caps = true then sprEprRequest caps else none) with
    | some ps =>
      rw [hs] at h
      have hps : ps = PowerSource.eprRequest rdo pdo := Option.some.inj h
      by_cases hb : sourceEprCapable caps = true
      · rw [if_pos hb] at hs
        obtain ⟨p, f, hshape, _⟩ := sprEprRequest_inv hs
        rw [hps] at hshape
        cases hshape
      · rw [if_neg hb] at hs
        cases hs
    | none =>
      rw [hs] at h
      cases hnf : newFixed CurrentRequest.highest VoltageRequest.highest caps with
      | some ps =>
        rw [hnf] at h
        have hps : ps = PowerSource.eprRequest rdo pdo := Option.some.inj h
        obtain ⟨p, f, hshape, _⟩ := newFixed_inv hnf
        rw [hps] at hshape
        cases hshape
      | none =>
        rw [hnf] at h
        obtain ⟨p, f, hshape, _⟩ := newFixed_inv h
        cases hshape

/-- Inversion for `request`: a fixed/variable request always selects a
fixed-supply PDO at its own 1-based position with both current fields equal to
that PDO's maximum current. -/
theorem request_fixed_inv {caps : SourceCapabilities} {rdo : FixedVariableRdo}
    (h : request caps = some (PowerSource.fixedVariableSupply rdo)) :
    ∃ f : FixedSupplyFields,
      (rdo.object_position, PowerDataObject.fixedSupply f) ∈ enumFrom 1 caps.pdos ∧
      rdo.raw_operating_current = f.raw_max_current ∧
      rdo.raw_max_operating_current = f.raw_max_current := by
  unfold request at h
  cases he : (if caps.is_epr_capabilities = true then avsScan caps.epr_pdos else none) with
  | some ps =>
    rw [he] at h
    have hps : ps = PowerSource.fixedVariableSupply rdo := Option.some.inj h
    by_cases hb : caps.is_epr_capabilities = true
    · rw [if_pos hb, avsScan_eq_findFirstAvs] at he
      cases hf : findFirstAvs caps.epr_pdos with
      | none => rw [hf] at he; cases he
      | some pa =>
        rw [hf] at he
        simp only [Option.map_some'] at he
        have h2 := Option.some.inj he
        rw [hps] at h2
        cases h2
    · rw [if_neg hb] at he
      cases he
  | none =>
    rw [he] at h
    cases hs : (if sourceEprCapable caps = true then sprEprRequest caps else none) with
    | some ps =>
      rw [hs] at h
      have hps : ps = PowerSource.fixedVariableSupply rdo := Option.some.inj h
      by_cases hb : sourceEprCapable caps = true
      · rw [if_pos hb] at hs
        obtain ⟨position, f, hshape, hmem⟩ := sprEprRequest_inv hs
        rw [hps] at hshape
        injection hshape with h3
        subst h3
        exact ⟨f, spr_pdos_subset caps _ hmem, rfl, rfl⟩
      · rw [if_neg hb] at hs
        cases hs
    | none =>
      rw [hs] at h
      cases hnf : newFixed CurrentRequest.highest VoltageRequest.highest caps with
      | some ps =>
        rw [hnf] at h
        have hps : ps = PowerSource.fixedVariableSupply rdo := Option.some.inj h
        obtain ⟨position, f, hshape, hmem⟩ := newFixed_inv hnf
        rw [hps] at hshape
        injection hshape with h3
        subst h3
        exact ⟨f, hmem, rfl, rfl⟩
      | none =>
        rw [hnf] at h
        obtain ⟨position, f, hshape, hmem⟩ := newFixed_inv h
        injection hshape with h3
        subst h3
        exact ⟨f, hmem, rfl, rfl⟩

/-- The AVS operating current never exceeds the budget-derived maximum in
50 mA units. -/
theorem mkAvsRdo_current_le_max (position : Nat) (avs : EprAvsFields) :
    (mkAvsRdo position avs).raw_operating_current ≤
      avs.raw_pd_power * 1000 / targetAvsVoltageV / 50 % 65536 := by
  simp only [mkAvsRdo]
  split <;> omega

/-- The requested AVS power, operating current (50 mA units) times the 24 V
target, stays within the PDO's advertised power budget (1 W units). -/
theorem mkAvsRdo_power_le (position : Nat) (avs : EprAvsFields) :
    (mkAvsRdo position avs).raw_operating_current * 50 * targetAvsVoltageV ≤
      avs.raw_pd_power * 1000 := by
  have h1 : (mkAvsRdo position avs).raw_operating_current ≤
      avs.raw_pd_power * 1000 / targetAvsVoltageV / 50 :=
    Nat.le_trans (mkAvsRdo_current_le_max position avs) (Nat.mod_le _ _)
  calc (mkAvsRdo position avs).raw_operating_current * 50 * targetAvsVoltageV
      ≤ avs.raw_pd_power * 1000 / targetAvsVoltageV / 50 * 50 * targetAvsVoltageV :=
        mul_le_mul_right' (mul_le_mul_right' h1 50) targetAvsVoltageV
    _ ≤ avs.raw_pd_power * 1000 / targetAvsVoltageV * targetAvsVoltageV :=
        mul_le_mul_right' (Nat.div_mul_le_self _ 50) targetAvsVoltageV
    _ ≤ avs.raw_pd_power * 1000 := Nat.div_mul_le_self _ _

/-- With the PDP field in its 8-bit range, the `as u16` cast is the identity
and the AVS operating current is the minimum of target and budget-derived
maximum. -/
theorem mkAvsRdo_current_eq (position : Nat) (avs : EprAvsFields)
    (hw : avs.raw_pd_power < 256) :
    (mkAvsRdo position avs).raw_operating_current =
      min targetAvsCurrentRaw (avs.raw_pd_power * 1000 / targetAvsVoltageV / 50) := by
  have hb : avs.raw_pd_power * 1000 / targetAvsVoltageV / 50 < 65536 := by
    have h1 : avs.raw_pd_power * 1000 ≤ 255 * 1000 :=
      mul_le_mul_right' (by omega) 1000
    have h2 : avs.raw_pd_power * 1000 / targetAvsVoltageV / 50 ≤
        255 * 1000 / targetAvsVoltageV / 50 :=
      Nat.div_le_div_right (Nat.div_le_div_right h1)
    have h3 : 255 * 1000 / targetAvsVoltageV / 50 = 212 := by
      rw [targetAvsVoltageV]
    omega
  simp only [mkAvsRdo, Nat.mod_eq_of_lt hb]
  rw [Nat.min_def]
  by_cases h : targetAvsCurrentRaw ≤ avs.raw_pd_power * 1000 / targetAvsVoltageV / 50
  · rw [if_neg (by omega), if_pos h]
  · rw [if_pos (by omega), if_neg h]

/-- C2: with EPR capabilities advertised, `request` selects the first
non-padding AVS PDO whose inclusive range contains the 24 000 mV target and
returns an EPR request tagged with that PDO and an RDO carrying its position
and an output-voltage field in 25 mV units whose two low bits are zero and
which decodes (raw times 25) back to exactly 24 000 mV. -/
theorem request_selects_first_avs (caps : SourceCapabilities) (pos : Nat) (avs : EprAvsFields)
    (h1 : caps.is_epr_capabilities = true)
    (h2 : findFirstAvs caps.epr_pdos = some (pos, avs)) :
    ∃ rdo : AvsRdo,
      request caps = some (PowerSource.eprRequest rdo
        (PowerDataObject.augmented (AugmentedPdo.epr avs))) ∧
      rdo.object_position = pos ∧
      rdo.raw_output_voltage % 4 = 0 ∧
      rdo.raw_output_voltage * 25 = targetAvsVoltageV * 1000 := by
  refine ⟨mkAvsRdo pos avs, ?_, rfl, ?_, ?_⟩
  · unfold request
    rw [if_pos h1, avsScan_eq_findFirstAvs, h2]
    rfl
  · show avsVoltageRaw % 4 = 0
    decide
  · show avsVoltageRaw * 25 = targetAvsVoltageV * 1000
    decide

/-- The capability list used to instantiate C2: a 5 V EPR-capable fixed PDO,
six zero-padding slots, and one 15-28 V AVS PDO at position 8. -/
def c2Avs : EprAvsFields := { raw_min_voltage := 150, raw_max_voltage := 280, raw_pd_power := 140 }

/-- Concrete EPR capabilities for the C2 witness. -/
def c2Caps : SourceCapabilities :=
  { pdos := [PowerDataObject.fixedSupply { raw_voltage := 100, raw_max_current := 300, epr_mode_capable := true },
             PowerDataObject.fixedSupply { raw_voltage := 0, raw_max_current := 0, epr_mode_capable := false },
             PowerDataObject.fixedSupply { raw_voltage := 0, raw_max_current := 0, epr_mode_capable := false },
             PowerDataObject.fixedSupply { raw_voltage := 0, raw_max_current := 0, epr_mode_capable := false },
             PowerDataObject.fixedSupply { raw_voltage := 0, raw_max_current := 0, epr_mode_capable := false },
             PowerDataObject.fixedSupply { raw_voltage := 0, raw_max_current := 0, epr_mode_capable := false },
             PowerDataObject.fixedSupply { raw_voltage := 0, raw_max_current := 0, epr_mode_capable := false },
             PowerDataObject.augmented (AugmentedPdo.epr c2Avs)]
    is_epr := true }

/-- C2 instantiated at a concrete EPR capability list. -/
theorem request_selects_first_avs_inst :
    ∃ rdo : AvsRdo,
      request c2Caps = some (PowerSource.eprRequest rdo
        (PowerDataObject.augmented (AugmentedPdo.epr c2Avs))) ∧
      rdo.object_position = 8 ∧
      rdo.raw_output_voltage % 4 = 0 ∧
      rdo.raw_output_voltage * 25 = targetAvsVoltageV * 1000 :=
  request_selects_first_avs c2Caps 8 c2Avs rfl rfl

/-- C3: whenever `request` builds an AVS request, the RDO's operating current
equals the minimum of the target current and the maximum deliverable current
derived from the PDO's power budget at the 24 V target, floor-divided into
50 mA units (the PDP field is 8 bits wide in the encoded PDO). -/
theorem request_avs_current_capped (caps : SourceCapabilities) (rdo : AvsRdo)
    (avs : EprAvsFields)
    (h : request caps = some (PowerSource.eprRequest rdo
      (PowerDataObject.augmented (AugmentedPdo.epr avs))))
    (hw : avs.raw_pd_power < 256) :
    rdo.raw_operating_current =
      min targetAvsCurrentRaw (avs.raw_pd_power * 1000 / targetAvsVoltageV / 50) := by
  obtain ⟨pos, avs2, heq, hrdo, _⟩ := request_epr_inv h
  injection heq with h1
  injection h1 with h2
  subst h2
  subst hrdo
  exact mkAvsRdo_current_eq pos avs hw

/-- The AVS PDO used to instantiate C3: 15-28 V with a 96 W budget, which at
24 V yields a 4 A maximum against the 5 A target. -/
def c3Avs : EprAvsFields := { raw_min_voltage := 150, raw_max_voltage := 280, raw_pd_power := 96 }

/-- Concrete EPR capabilities for the C3 witness. -/
def c3Caps : SourceCapabilities :=
  { pdos := [PowerDataObject.fixedSupply { raw_voltage := 100, raw_max_current := 300, epr_mode_capable := true },
             PowerDataObject.fixedSupply { raw_voltage := 0, raw_max_current := 0, epr_mode_capable := false },
             PowerDataObject.fixedSupply { raw_voltage := 0, raw_max_current := 0, epr_mode_capable := false },
             PowerDataObject.fixedSupply { raw_voltage := 0, raw_max_current := 0, epr_mode_capable := false },
             PowerDataObject.fixedSupply { raw_voltage := 0, raw_max_current := 0, epr_mode_capable := false },
             PowerDataObject.fixedSupply { raw_voltage := 0, raw_max_current := 0, epr_mode_capable := false },
             PowerDataObject.fixedSupply { raw_voltage := 0, raw_max_current := 0, epr_mode_capable := false },
             PowerDataObject.augmented (AugmentedPdo.epr c3Avs)]
    is_epr := true }

/-- The RDO `request` builds for `c3Caps`. -/
def c3Rdo : AvsRdo := mkAvsRdo 8 c3Avs

/-- C3 instantiated: the 96 W budget at 24 V caps the 5 A target to exactly
4 A (raw 80 in 50 mA units). -/
theorem request_avs_current_capped_inst :
    c3Rdo.raw_operating_current =
      min targetAvsCurrentRaw (c3Avs.raw_pd_power * 1000 / targetAvsVoltageV / 50) ∧
    c3Rdo.raw_operating_current = 80 :=
  ⟨request_avs_current_capped c3Caps c3Rdo c3Avs rfl (by decide), by decide⟩

/-- C10: every AVS request built by `request` stays within the selected PDO's
advertised power budget: operating current (50 mA units) times 50, times the
24 V target, is at most the PDO's PDP (1 W units) times 1000. -/
theorem request_avs_power_within_budget (caps : SourceCapabilities) (rdo : AvsRdo)
    (avs : EprAvsFields)
    (h : request caps = some (PowerSource.eprRequest rdo
      (PowerDataObject.augmented (AugmentedPdo.epr avs)))) :
    rdo.raw_operating_current * 50 * targetAvsVoltageV ≤ avs.raw_pd_power * 1000 := by
  obtain ⟨pos, avs2, heq, hrdo, _⟩ := request_epr_inv h
  injection heq with h1
  injection h1 with h2
  subst h2
  subst hrdo
  exact mkAvsRdo_power_le pos avs

/-- The AVS PDO used to instantiate C10. -/
def c10Avs : EprAvsFields := { raw_min_voltage := 150, raw_max_voltage := 280, raw_pd_power := 96 }

/-- Concrete EPR capabilities for the C10 witness. -/
def c10Caps : SourceCapabilities :=
  { pdos := [PowerDataObject.fixedSupply { raw_voltage := 100, raw_max_current := 300, epr_mode_capable := true },
             PowerDataObject.fixedSupply { raw_voltage := 0, raw_max_current := 0, epr_mode_capable := false },
             PowerDataObject.fixedSupply { raw_voltage := 0, raw_max_current := 0, epr_mode_capable := false },
             PowerDataObject.fixedSupply { raw_voltage := 0, raw_max_current := 0, epr_mode_capable := false },
             PowerDataObject.fixedSupply { raw_voltage := 0, raw_max_current := 0, epr_mode_capable := false },
             PowerDataObject.fixedSupply { raw_voltage := 0, raw_max_current := 0, epr_mode_capable := false },
             PowerDataObject.fixedSupply { raw_voltage := 0, raw_max_current := 0, epr_mode_capable := false },
             PowerDataObject.augmented (AugmentedPdo.epr c10Avs)]
    is_epr := true }

/-- The RDO `request` builds for `c10Caps`. -/
def c10Rdo : AvsRdo := mkAvsRdo 8 c10Avs

/-- C10 instantiated at a concrete EPR capability list. -/
theorem request_avs_power_within_budget_inst :
    c10Rdo.raw_operating_current * 50 * targetAvsVoltageV ≤ c10Avs.raw_pd_power * 1000 :=
  request_avs_power_within_budget c10Caps c10Rdo c10Avs rfl

/-- C5: whenever the advertised list contains a 5 V fixed-supply PDO (raw
voltage 100 in 50 mV units), `request` produces a request — the final 5 V
fallback construction cannot fail, so the `unwrap` panic branch (modelled by
`none`) is unreachable. -/
theorem request_total_with_5v (caps : SourceCapabilities)
    (h : ∃ f : FixedSupplyFields,
      PowerDataObject.fixedSupply f ∈ caps.pdos ∧ f.raw_voltage = 100) :
    (request caps).isSome := by
  obtain ⟨f, hf, hv⟩ := h
  have hnf : (newFixed CurrentRequest.highest VoltageRequest.highest caps).isSome :=
    newFixed_highest_isSome ⟨f, hf⟩
  unfold request
  cases he : (if caps.is_epr_capabilities = true then avsScan caps.epr_pdos else none) with
  | some ps => rfl
  | none =>
    cases hs : (if sourceEprCapable caps = true then sprEprRequest caps else none) with
    | some ps => rfl
    | none =>
      cases hn : newFixed CurrentRequest.highest VoltageRequest.highest caps with
      | some ps => rfl
      | none =>
        rw [hn] at hnf
        simp at hnf

/-- Concrete SPR capabilities for the C5 witness: a single 5 V / 3 A fixed
PDO. -/
def c5Caps : SourceCapabilities :=
  { pdos := [PowerDataObject.fixedSupply { raw_voltage := 100, raw_max_current := 300, epr_mode_capable := false }]
    is_epr := false }

/-- C5 instantiated at a concrete capability list. -/
theorem request_total_with_5v_inst : (request c5Caps).isSome :=
  request_total_with_5v c5Caps
    ⟨{ raw_voltage := 100, raw_max_current := 300, epr_mode_capable := false }, by decide, rfl⟩

/-- C6: when the first PDO signals EPR capability but the AVS scan selects
nothing (no in-range AVS PDO, or an SPR-only list), `request` selects a
highest-voltage fixed-supply PDO among the SPR PDOs and builds a
fixed/variable RDO whose operating and max-operating currents both equal that
PDO's maximum current and whose EPR-capable flag is set. -/
theorem request_spr_epr_fallback (caps : SourceCapabilities) (f0 : FixedSupplyFields)
    (hhead : caps.pdos.head? = some (PowerDataObject.fixedSupply f0))
    (hepr : f0.epr_mode_capable = true)
    (havs : caps.is_epr_capabilities = true → findFirstAvs caps.epr_pdos = none) :
    ∃ (position : Nat) (g : FixedSupplyFields),
      request caps = some (PowerSource.fixedVariableSupply
        { object_position := position
          usb_communications_capable := true
          no_usb_suspend := true
          epr_mode_capable := true
          raw_operating_current := g.raw_max_current
          raw_max_operating_current := g.raw_max_current }) ∧
      (position, PowerDataObject.fixedSupply g) ∈ caps.spr_pdos ∧
      ∀ q ∈ caps.spr_pdos, ∀ g2 : FixedSupplyFields,
        q.2 = PowerDataObject.fixedSupply g2 → g2.raw_voltage ≤ g.raw_voltage := by
  have hcap : sourceEprCapable caps = true := by
    unfold sourceEprCapable
    rw [hhead]
    exact hepr
  have h1 : (if caps.is_epr_capabilities = true then avsScan caps.epr_pdos else none) = none := by
    by_cases hb : caps.is_epr_capabilities = true
    · rw [if_pos hb, avsScan_eq_findFirstAvs, havs hb]
      rfl
    · rw [if_neg hb]
  have hmem0 : (1, PowerDataObject.fixedSupply f0) ∈ caps.spr_pdos.filter isFixedPair :=
    List.mem_filter.mpr ⟨head_mem_spr_pdos hhead, rfl⟩
  have hne : caps.spr_pdos.filter isFixedPair ≠ [] := by
    intro hnil
    rw [hnil] at hmem0
    simp at hmem0
  cases hm : maxByKey fixedVoltageKey (caps.spr_pdos.filter isFixedPair) with
  | none => exact absurd (maxByKey_eq_none hm) hne
  | some pp =>
    obtain ⟨position, pdo⟩ := pp
    have hmf := List.mem_filter.mp (maxByKey_mem hm)
    cases pdo with
    | fixedSupply g =>
      have hspr : sprEprRequest caps = some (PowerSource.fixedVariableSupply
          { object_position := position
            usb_communications_capable := true
            no_usb_suspend := true
            epr_mode_capable := true
            raw_operating_current := g.raw_max_current
            raw_max_operating_current := g.raw_max_current }) := by
        unfold sprEprRequest
        rw [hm]
      refine ⟨position, g, ?_, hmf.1, ?_⟩
      · unfold request
        rw [h1, if_pos hcap, hspr]
      · intro q hq g2 hg2
        obtain ⟨qpos, qp⟩ := q
        have hqp : qp = PowerDataObject.fixedSupply g2 := hg2
        subst hqp
        have hqf : (qpos, PowerDataObject.fixedSupply g2) ∈ caps.spr_pdos.filter isFixedPair :=
          List.mem_filter.mpr ⟨hq, rfl⟩
        have hle := maxByKey_le hm hqf
        simpa [fixedVoltageKey] using hle
    | battery raw => simp [isFixedPair] at hmf
    | variableSupply raw => simp [isFixedPair] at hmf
    | augmented a => simp [isFixedPair] at hmf
    | unknown raw => simp [isFixedPair] at hmf

/-- Concrete SPR-only capabilities for the C6 witness: an EPR-capable 5 V
fixed PDO followed by a 9 V fixed PDO. -/
def c6Caps : SourceCapabilities :=
  { pdos := [PowerDataObject.fixedSupply { raw_voltage := 100, raw_max_current := 300, epr_mode_capable := true },
             PowerDataObject.fixedSupply { raw_voltage := 180, raw_max_current := 300, epr_mode_capable := false }]
    is_epr := false }

/-- C6 instantiated at a concrete SPR-only capability list. -/
theorem request_spr_epr_fallback_inst :
    ∃ (position : Nat) (g : FixedSupplyFields),
      request c6Caps = some (PowerSource.fixedVariableSupply
        { object_position := position
          usb_communications_capable := true
          no_usb_suspend := true
          epr_mode_capable := true
          raw_operating_current := g.raw_max_current
          raw_max_operating_current := g.raw_max_current }) ∧
      (position, PowerDataObject.fixedSupply g) ∈ c6Caps.spr_pdos ∧
      ∀ q ∈ c6Caps.spr_pdos, ∀ g2 : FixedSupplyFields,
        q.2 = PowerDataObject.fixedSupply g2 → g2.raw_voltage ≤ g.raw_voltage :=
  request_spr_epr_fallback c6Caps
    { raw_voltage := 100, raw_max_current := 300, epr_mode_capable := true }
    rfl rfl (fun hcontra => by cases hcontra)

/-- C7: the `object_position` of any request produced by `request` is the
1-based index, within the capability list passed in that same call, of the
PDO actually selected — the carried AVS PDO for an EPR request, and a
fixed-supply PDO whose maximum current the RDO requests for a fixed/variable
request. -/
theorem request_object_position_valid (caps : SourceCapabilities) (ps : PowerSource)
    (h : request caps = some ps) :
    1 ≤ ps.object_position ∧
    ∃ pdo, caps.pdos[ps.object_position - 1]? = some pdo ∧
      (match ps with
       | PowerSource.eprRequest _ p => pdo = p
       | PowerSource.fixedVariableSupply rdo =>
         ∃ f, pdo = PowerDataObject.fixedSupply f ∧
           rdo.raw_max_operating_current = f.raw_max_current) := by
  cases ps with
  | eprRequest rdo pdo =>
    obtain ⟨pos, avs, hpdo, hrdo, hf⟩ := request_epr_inv h
    subst hpdo
    subst hrdo
    have hmem := epr_pdos_subset caps _ (findFirstAvs_mem hf)
    obtain ⟨hle, hget⟩ := enumFrom_mem _ 1 _ _ hmem
    exact ⟨hle, _, hget, rfl⟩
  | fixedVariableSupply rdo =>
    obtain ⟨f, hmem, hcur, hmax⟩ := request_fixed_inv h
    obtain ⟨hle, hget⟩ := enumFrom_mem _ 1 _ _ hmem
    exact ⟨hle, _, hget, f, rfl, hmax⟩

/-- Concrete capabilities for the C7 witness. -/
def c7Caps : SourceCapabilities :=
  { pdos := [PowerDataObject.fixedSupply { raw_voltage := 100, raw_max_current := 300, epr_mode_capable := false }]
    is_epr := false }

/-- The request produced for `c7Caps`. -/
def c7Ps : PowerSource :=
  PowerSource.fixedVariableSupply
    { object_position := 1
      usb_communications_capable := true
      no_usb_suspend := true
      epr_mode_capable := false
      raw_operating_current := 300
      raw_max_operating_current := 300 }

/-- C7 instantiated at a concrete capability list. -/
theorem request_object_position_valid_inst :
    1 ≤ c7Ps.object_position ∧
    ∃ pdo, c7Caps.pdos[c7Ps.object_position - 1]? = some pdo ∧
      (match c7Ps with
       | PowerSource.eprRequest _ p => pdo = p
       | PowerSource.fixedVariableSupply rdo =>
         ∃ f, pdo = PowerDataObject.fixedSupply f ∧
           rdo.raw_max_operating_current = f.raw_max_current) :=
  request_object_position_valid c7Caps c7Ps rfl

end PdDemo
